import Mathlib

/-!
# Internal Sales Admin Panel — verification of the frontend core

Shallow embedding of the data model and the operations of the
Internal-Sales-Admin-Panel repository (React/TypeScript frontend over a REST
backend), together with proofs of the behavioural properties stated in the
project specification: cart invariants of the order-creation modal, the
pagination page-list generators, price freezing at order creation, order
status monotonicity, delete-guard behaviour, and the service-layer error
convention.

Prices are modelled as rationals, ids and quantities as integers, mirroring
the JavaScript number type on the values the code actually manipulates.
-/

namespace SalesAdmin

/-- Order status values of the order types module (`'draft' | 'confirmed' | 'completed'`). -/
inductive OrderStatus
  | draft
  | confirmed
  | completed
deriving DecidableEq, Repr, Fintype

/-- Product entity (`types/product.ts`): the `ProductCreate` payload fields plus
`id` and `created_at` added by the backend response. -/
structure Product where
  name : String
  service_line : String
  description : Option String
  price : ℚ
  is_active : Bool
  id : Int
  created_at : String
deriving DecidableEq, Repr

/-- A cart row of `CreateOrderModal` (`{ product: Product; quantity: number }`). -/
structure CartItem where
  product : Product
  quantity : Int
deriving DecidableEq, Repr

/-- JavaScript truthiness check used by `addToCart` on `currentProduct`
(`!currentProduct` is true for `null` and for `0`). -/
def isFalsyId : Option Int → Bool
  | none => true
  | some v => v == 0

/-- `addToCart` of `CreateOrderModal`: rejects a falsy product selection or a
non-positive quantity, looks the product up in the active products list, then
either bumps the quantity of the existing cart row for that product or appends
a new row. -/
def addToCart (products : List Product) (currentProduct : Option Int) (quantity : Int)
    (cart : List CartItem) : List CartItem :=
  if isFalsyId currentProduct then cart
  else if quantity ≤ 0 then cart
  else
    match currentProduct with
    | none => cart
    | some pid =>
      match products.find? (fun p => p.id == pid) with
      | none => cart
      | some selectedProduct =>
        if cart.any (fun item => item.product.id == pid) then
          cart.map (fun item =>
            if item.product.id == pid then
              { item with quantity := item.quantity + quantity }
            else item)
        else
          cart ++ [{ product := selectedProduct, quantity := quantity }]

/-- `removeFromCart` of `CreateOrderModal`: keeps the rows whose product id differs. -/
def removeFromCart (productId : Int) (cart : List CartItem) : List CartItem :=
  cart.filter (fun item => item.product.id != productId)

/-- The quantity-rewrite map used by `updateCartItemQuantity` (and, with a bump,
by `addToCart`): set the quantity of the row holding `productId`. -/
def setCartQuantity (productId : Int) (newQuantity : Int) (cart : List CartItem) :
    List CartItem :=
  cart.map (fun item =>
    if item.product.id == productId then { item with quantity := newQuantity } else item)

/-- `updateCartItemQuantity` of `CreateOrderModal`: a quantity of zero or below
removes the row, otherwise the quantity is overwritten. -/
def updateCartItemQuantity (productId : Int) (newQuantity : Int) (cart : List CartItem) :
    List CartItem :=
  if newQuantity ≤ 0 then removeFromCart productId cart
  else setCartQuantity productId newQuantity cart

/-- One user interaction with the cart of `CreateOrderModal`. -/
inductive CartOp
  | add (products : List Product) (currentProduct : Option Int) (quantity : Int)
  | remove (productId : Int)
  | update (productId : Int) (newQuantity : Int)

/-- Apply one cart operation to the current cart state. -/
def applyCartOp (cart : List CartItem) : CartOp → List CartItem
  | .add products currentProduct quantity => addToCart products currentProduct quantity cart
  | .remove productId => removeFromCart productId cart
  | .update productId newQuantity => updateCartItemQuantity productId newQuantity cart

/-- Apply a sequence of cart operations, starting from a given cart. -/
def applyCartOps (ops : List CartOp) (cart : List CartItem) : List CartItem :=
  ops.foldl applyCartOp cart

/-- The ids of the products currently in the cart. -/
def cartIds (cart : List CartItem) : List Int :=
  cart.map (fun item => item.product.id)

/-- The cart invariant of the order-creation modal: every row has a quantity of
at least one and the product ids of the rows are pairwise distinct. -/
def cartInvariant (cart : List CartItem) : Prop :=
  (∀ item ∈ cart, 1 ≤ item.quantity) ∧ (cartIds cart).Nodup

lemma cartIds_setCartQuantity (productId newQuantity : Int) (cart : List CartItem) :
    cartIds (setCartQuantity productId newQuantity cart) = cartIds cart := by
  unfold cartIds setCartQuantity
  rw [List.map_map]
  apply List.map_congr_left
  intro item _
  by_cases h : item.product.id = productId <;> simp [h]

lemma cartIds_bump (pid q : Int) (cart : List CartItem) :
    cartIds (cart.map (fun item =>
      if item.product.id == pid then
        { item with quantity := item.quantity + q }
      else item)) = cartIds cart := by
  unfold cartIds
  rw [List.map_map]
  apply List.map_congr_left
  intro item _
  by_cases h : item.product.id = pid <;> simp [h]

lemma cartInvariant_addToCart (products : List Product) (currentProduct : Option Int)
    (quantity : Int) (cart : List CartItem) (h : cartInvariant cart) :
    cartInvariant (addToCart products currentProduct quantity cart) := by
  unfold addToCart
  split
  · exact h
  · split
    · exact h
    · match currentProduct with
      | none => exact h
      | some pid =>
        simp only
        cases hfind : products.find? (fun p => p.id == pid) with
        | none => exact h
        | some selectedProduct =>
          simp only
          rename_i hq
          have hq1 : 1 ≤ quantity := by omega
          split
          · constructor
            · intro item hitem
              rw [List.mem_map] at hitem
              obtain ⟨item₀, hmem₀, heq⟩ := hitem
              have h₀ := h.1 item₀ hmem₀
              by_cases hid : item₀.product.id == pid
              · rw [if_pos hid] at heq
                subst heq
                simp only
                omega
              · rw [if_neg hid] at heq
                subst heq
                exact h₀
            · rw [cartIds_bump]
              exact h.2
          · rename_i hnotin
            constructor
            · intro item hitem
              rw [List.mem_append] at hitem
              cases hitem with
              | inl hmem => exact h.1 item hmem
              | inr hmem =>
                rw [List.mem_singleton] at hmem
                subst hmem
                exact hq1
            · have hids : cartIds (cart ++ [{ product := selectedProduct, quantity := quantity }])
                  = cartIds cart ++ [selectedProduct.id] := by
                unfold cartIds
                rw [List.map_append]
                rfl
              rw [hids, List.nodup_append]
              refine ⟨h.2, List.nodup_singleton _, ?_⟩
              intro x hx hx1
              rw [List.mem_singleton] at hx1
              subst hx1
              have hpid : selectedProduct.id = pid := by
                have := List.find?_some hfind
                simpa using this
              rw [hpid] at hx
              unfold cartIds at hx
              rw [List.mem_map] at hx
              obtain ⟨item₀, hmem₀, hid₀⟩ := hx
              have : cart.any (fun item => item.product.id == pid) = true := by
                rw [List.any_eq_true]
                exact ⟨item₀, hmem₀, by simp [hid₀]⟩
              exact hnotin this

lemma cartInvariant_removeFromCart (productId : Int) (cart : List CartItem)
    (h : cartInvariant cart) : cartInvariant (removeFromCart productId cart) := by
  constructor
  · intro item hitem
    unfold removeFromCart at hitem
    rw [List.mem_filter] at hitem
    exact h.1 item hitem.1
  · have hsub : List.Sublist (cartIds (removeFromCart productId cart)) (cartIds cart) := by
      unfold cartIds removeFromCart
      exact (List.filter_sublist cart).map _
    exact h.2.sublist hsub

lemma cartInvariant_updateCartItemQuantity (productId newQuantity : Int)
    (cart : List CartItem) (h : cartInvariant cart) :
    cartInvariant (updateCartItemQuantity productId newQuantity cart) := by
  unfold updateCartItemQuantity
  split
  · exact cartInvariant_removeFromCart productId cart h
  · rename_i hq
    constructor
    · intro item hitem
      unfold setCartQuantity at hitem
      rw [List.mem_map] at hitem
      obtain ⟨item₀, hmem₀, heq⟩ := hitem
      by_cases hid : item₀.product.id == productId
      · rw [if_pos hid] at heq
        subst heq
        simp only
        omega
      · rw [if_neg hid] at heq
        subst heq
        exact h.1 item₀ hmem₀
    · rw [cartIds_setCartQuantity]
      exact h.2

lemma cartInvariant_applyCartOps (ops : List CartOp) (cart : List CartItem)
    (h : cartInvariant cart) : cartInvariant (applyCartOps ops cart) := by
  induction ops generalizing cart with
  | nil => exact h
  | cons op ops ih =>
    rw [applyCartOps, List.foldl_cons]
    apply ih
    cases op with
    | add products currentProduct quantity =>
      exact cartInvariant_addToCart products currentProduct quantity cart h
    | remove productId => exact cartInvariant_removeFromCart productId cart h
    | update productId newQuantity =>
      exact cartInvariant_updateCartItemQuantity productId newQuantity cart h

lemma cartInvariant_nil : cartInvariant [] := by
  constructor
  · intro item hitem
    exact absurd hitem (List.not_mem_nil item)
  · exact List.nodup_nil

/-- Adding a product that is already in the cart rewrites the existing row's
quantity (no second row is appended). -/
lemma addToCart_existing (products : List Product) (pid quantity : Int)
    (cart : List CartItem) (hpid : pid ≠ 0) (hq : ¬ quantity ≤ 0)
    (hfound : (products.find? (fun p => p.id == pid)).isSome = true)
    (hmem : cart.any (fun item => item.product.id == pid) = true) :
    addToCart products (some pid) quantity cart
      = cart.map (fun item =>
          if item.product.id == pid then
            { item with quantity := item.quantity + quantity }
          else item) := by
  unfold addToCart
  rw [if_neg (by simp [isFalsyId, hpid]), if_neg hq]
  simp only
  cases hfind : products.find? (fun p => p.id == pid) with
  | none => rw [hfind] at hfound; simp at hfound
  | some selectedProduct => simp only [hmem, if_pos]

/-- `C10`: starting from the empty cart, any sequence of `addToCart`,
`removeFromCart` and `updateCartItemQuantity` operations keeps every cart
quantity at least 1 and the product ids pairwise distinct; adding a product
already in the cart rewrites that row's quantity (the cart length is
unchanged), and updating a quantity to zero or below removes the row. -/
theorem C10_cart_invariant :
    (∀ ops : List CartOp, cartInvariant (applyCartOps ops [])) ∧
    (∀ (products : List Product) (pid quantity : Int) (cart : List CartItem),
       pid ≠ 0 → ¬ quantity ≤ 0 →
       (products.find? (fun p => p.id == pid)).isSome = true →
       cart.any (fun item => item.product.id == pid) = true →
       addToCart products (some pid) quantity cart
           = cart.map (fun item =>
               if item.product.id == pid then
                 { item with quantity := item.quantity + quantity }
               else item) ∧
         (addToCart products (some pid) quantity cart).length = cart.length) ∧
    (∀ (pid newQuantity : Int) (cart : List CartItem), newQuantity ≤ 0 →
       updateCartItemQuantity pid newQuantity cart = removeFromCart pid cart) := by
  refine ⟨?_, ?_, ?_⟩
  · intro ops
    exact cartInvariant_applyCartOps ops [] cartInvariant_nil
  · intro products pid quantity cart hpid hq hfound hmem
    have heq := addToCart_existing products pid quantity cart hpid hq hfound hmem
    rw [heq]
    exact ⟨rfl, List.length_map _ _⟩
  · intro pid newQuantity cart hq
    unfold updateCartItemQuantity
    rw [if_pos hq]

/-- A concrete product used for witness evaluations. -/
def sampleProduct : Product :=
  { name := "Audit Plan", service_line := "Audit", description := none,
    price := 100, is_active := true, id := 1, created_at := "2024-01-01" }

/-- Witness for `C10_cart_invariant` at a concrete operation sequence and cart. -/
theorem C10_cart_invariant_witness :
    cartInvariant (applyCartOps
      [CartOp.add [sampleProduct] (some 1) 2, CartOp.update 1 5, CartOp.remove 1] []) ∧
    (addToCart [sampleProduct] (some 1) 3 [{ product := sampleProduct, quantity := 2 }]
        = [{ product := sampleProduct, quantity := 5 }] ∧
      (addToCart [sampleProduct] (some 1) 3
          [{ product := sampleProduct, quantity := 2 }]).length = 1) ∧
    updateCartItemQuantity 1 0 [{ product := sampleProduct, quantity := 2 }]
      = removeFromCart 1 [{ product := sampleProduct, quantity := 2 }] := by
  refine ⟨C10_cart_invariant.1 _, ?_, C10_cart_invariant.2.2 1 0 _ (by decide)⟩
  have h := C10_cart_invariant.2.1 [sampleProduct] 1 3
    [{ product := sampleProduct, quantity := 2 }]
    (by decide) (by decide) (by decide) (by decide)
  refine ⟨?_, h.2⟩
  rw [h.1]
  decide

/-! ## Pagination page-list generators

Three versions of `getPageNumbers` coexist in the repository: the threshold-7
±1-window version of the early `Pagination` component, the 5-visible-buttons
clamped-window version, and the threshold-6 ±1-window version of the current
`Pagination` component. All three return a list of page buttons and
ellipsis markers. -/

/-- One entry of the list produced by `getPageNumbers`: a numeric page button
or an `'ellipsis'` marker. -/
inductive PageEntry
  | page : Int → PageEntry
  | ellipsis
deriving DecidableEq, Repr

/-- The ascending run of integers from `a` to `a + n - 1`. -/
def intRangeAux : Nat → Int → List Int
  | 0, _ => []
  | n + 1, a => a :: intRangeAux n (a + 1)

/-- The ascending run of integers from `a` to `b` inclusive (empty when `b < a`),
mirroring both `Array.from({length: total}, (_, i) => i + 1)` and the
`for (let i = start; i <= end; i += 1)` push loops. -/
def intRange (a b : Int) : List Int :=
  intRangeAux (b + 1 - a).toNat a

/-- `getPageNumbers` of the early `Pagination` component: all pages up to a
total of 7, otherwise first page, a ±1 window around the current page, and the
last page, with ellipsis markers at the gaps. -/
def getPageNumbersSeven (current total : Int) : List PageEntry :=
  if total ≤ 7 then (intRange 1 total).map .page
  else
    let start := max 2 (current - 1)
    let stop := min (total - 1) (current + 1)
    [PageEntry.page 1]
      ++ (if 2 < start then [PageEntry.ellipsis] else [])
      ++ (intRange start stop).map .page
      ++ (if stop < total - 1 then [PageEntry.ellipsis] else [])
      ++ [PageEntry.page total]

/-- `getPageNumbers` of the 5-visible-buttons `Pagination` component: a window
of 5 pages centred on the current page, clamped to the valid range, with the
first and last page plus ellipsis markers added when the window does not touch
the ends. -/
def getPageNumbersFive (current total : Int) : List PageEntry :=
  if total ≤ 5 then (intRange 1 total).map .page
  else
    let start0 := current - 2
    let stop0 := current + 2
    let start := if start0 < 1 then 1 else if total < stop0 then total - 5 + 1 else start0
    let stop := if start0 < 1 then 5 else if total < stop0 then total else stop0
    (if 1 < start then
        [PageEntry.page 1] ++ (if 2 < start then [PageEntry.ellipsis] else [])
      else [])
      ++ (intRange start stop).map .page
      ++ (if stop < total then
            (if stop < total - 1 then [PageEntry.ellipsis] else []) ++ [PageEntry.page total]
          else [])

/-- `getPageNumbers` of the current `Pagination` component (`Table.tsx` file):
all pages up to a total of 6, otherwise first page, a ±1 window around the
current page, and the last page, with ellipsis markers at the gaps. -/
def getPageNumbersSix (current total : Int) : List PageEntry :=
  if total ≤ 6 then (intRange 1 total).map .page
  else
    let leftNeighbor := max 2 (current - 1)
    let rightNeighbor := min (total - 1) (current + 1)
    [PageEntry.page 1]
      ++ (if 2 < leftNeighbor then [PageEntry.ellipsis] else [])
      ++ (intRange leftNeighbor rightNeighbor).map .page
      ++ (if rightNeighbor < total - 1 then [PageEntry.ellipsis] else [])
      ++ [PageEntry.page total]

/-! ### Range infrastructure -/

lemma intRangeAux_mem (n : Nat) (a x : Int) :
    x ∈ intRangeAux n a ↔ a ≤ x ∧ x < a + n := by
  induction n generalizing a with
  | zero => simp [intRangeAux]
  | succ n ih =>
    simp only [intRangeAux, List.mem_cons, ih]
    constructor
    · rintro (rfl | ⟨h1, h2⟩) <;> constructor <;> omega
    · rintro ⟨h1, h2⟩
      by_cases hx : x = a
      · exact Or.inl hx
      · exact Or.inr ⟨by omega, by omega⟩

lemma mem_intRange (a b x : Int) : x ∈ intRange a b ↔ a ≤ x ∧ x ≤ b := by
  unfold intRange
  rw [intRangeAux_mem]
  by_cases h : a ≤ b + 1
  · rw [Int.toNat_of_nonneg (by omega)]
    omega
  · have : (b + 1 - a).toNat = 0 := by omega
    rw [this]
    omega

lemma intRangeAux_chain (n : Nat) (a : Int) :
    List.Chain' (· < ·) (intRangeAux n a) := by
  induction n generalizing a with
  | zero => simp [intRangeAux]
  | succ n ih =>
    rw [intRangeAux, List.chain'_cons']
    refine ⟨?_, ih (a + 1)⟩
    intro y hy
    cases n with
    | zero => simp [intRangeAux] at hy
    | succ m =>
      simp only [intRangeAux, List.head?_cons, Option.mem_def, Option.some.injEq] at hy
      omega

lemma intRange_chain (a b : Int) : List.Chain' (· < ·) (intRange a b) :=
  intRangeAux_chain _ a

lemma intRangeAux_head (n : Nat) (a : Int) (h : 0 < n) :
    (intRangeAux n a).head? = some a := by
  cases n with
  | zero => omega
  | succ m => rfl

lemma intRange_head (a b : Int) (h : a ≤ b) : (intRange a b).head? = some a := by
  unfold intRange
  exact intRangeAux_head _ a (by omega)

lemma intRangeAux_concat (n : Nat) (a : Int) :
    intRangeAux (n + 1) a = intRangeAux n a ++ [a + n] := by
  induction n generalizing a with
  | zero => simp [intRangeAux]
  | succ m ih =>
    rw [intRangeAux, ih (a + 1), intRangeAux]
    simp only [List.cons_append, List.cons.injEq, true_and]
    congr 2
    push_cast
    ring

lemma intRangeAux_getLast (n : Nat) (a : Int) (h : 0 < n) :
    (intRangeAux n a).getLast? = some (a + n - 1) := by
  cases n with
  | zero => omega
  | succ m =>
    rw [intRangeAux_concat, List.getLast?_concat]
    congr 1
    push_cast
    ring

lemma intRange_getLast (a b : Int) (h : a ≤ b) : (intRange a b).getLast? = some b := by
  unfold intRange
  rw [intRangeAux_getLast _ a (by omega)]
  congr 1
  rw [Int.toNat_of_nonneg (by omega)]
  ring

lemma intRange_concat (a b : Int) (h : a ≤ b) :
    intRange a b = intRange a (b - 1) ++ [b] := by
  unfold intRange
  have h1 : (b + 1 - a).toNat = (b - a).toNat + 1 := by omega
  have h2 : a + ((b - a).toNat : Int) = b := by
    rw [Int.toNat_of_nonneg (by omega)]
    ring
  have h4 : b - 1 + 1 - a = b - a := by ring
  rw [h1, intRangeAux_concat, h2, h4]

lemma intRange_cons (a b : Int) (h : a ≤ b) :
    intRange a b = a :: intRange (a + 1) b := by
  unfold intRange
  have h1 : (b + 1 - a).toNat = (b + 1 - (a + 1)).toNat + 1 := by omega
  rw [h1, intRangeAux]

lemma intRange_nil (a b : Int) (h : b < a) : intRange a b = [] := by
  unfold intRange
  have : (b + 1 - a).toNat = 0 := by omega
  rw [this, intRangeAux]

lemma intRange_ne_nil (a b : Int) (h : a ≤ b) : intRange a b ≠ [] := by
  rw [intRange_cons a b h]
  exact List.cons_ne_nil _ _

/-! ### Page-list well-formedness -/

/-- The numeric entries of a page list, in order. -/
def pageValues (l : List PageEntry) : List Int :=
  l.filterMap (fun e => match e with | .page n => some n | .ellipsis => none)

/-- Scan of a page list that has just passed the numeric entry `prev`: every
`'ellipsis'` must sit immediately between two numeric entries whose difference
is more than 1. -/
def ellipsisOkFrom : Int → List PageEntry → Bool
  | _, [] => true
  | _, .page b :: rest => ellipsisOkFrom b rest
  | a, .ellipsis :: .page b :: rest => decide (1 < b - a) && ellipsisOkFrom b rest
  | _, .ellipsis :: .ellipsis :: _ => false
  | _, [.ellipsis] => false

/-- Every `'ellipsis'` of the page list sits immediately between two numeric
entries whose difference is more than 1. -/
def ellipsisOk : List PageEntry → Bool
  | [] => true
  | .page a :: rest => ellipsisOkFrom a rest
  | .ellipsis :: _ => false

lemma pageValues_append (l₁ l₂ : List PageEntry) :
    pageValues (l₁ ++ l₂) = pageValues l₁ ++ pageValues l₂ :=
  List.filterMap_append l₁ l₂ _

lemma pageValues_pages (xs : List Int) : pageValues (xs.map .page) = xs := by
  induction xs with
  | nil => rfl
  | cons x xs ih =>
    simp only [List.map_cons, pageValues, List.filterMap_cons] at *
    rw [ih]

lemma pageValues_cons_page (n : Int) (l : List PageEntry) :
    pageValues (.page n :: l) = n :: pageValues l := rfl

lemma pageValues_cons_ellipsis (l : List PageEntry) :
    pageValues (.ellipsis :: l) = pageValues l := rfl

lemma ellipsisOkFrom_pages (xs : List Int) (a : Int) :
    ellipsisOkFrom a (xs.map .page) = true := by
  induction xs generalizing a with
  | nil => rfl
  | cons x xs ih =>
    simp only [List.map_cons, ellipsisOkFrom]
    exact ih x

lemma ellipsisOkFrom_range_suffix (b : Int) :
    ∀ (n : Nat) (a : Int), a ≤ b → (b - a).toNat = n →
      ∀ (prev : Int) (l : List PageEntry),
        ellipsisOkFrom prev ((intRange a b).map .page ++ l) = ellipsisOkFrom b l := by
  intro n
  induction n with
  | zero =>
    intro a ha hn prev l
    have hab : a = b := by omega
    subst hab
    rw [intRange_cons a a le_rfl, intRange_nil (a + 1) a (by omega)]
    simp only [List.map_cons, List.map_nil, List.cons_append, List.nil_append, ellipsisOkFrom]
    rfl
  | succ m ih =>
    intro a ha hn prev l
    have hab : a < b := by omega
    rw [intRange_cons a b ha]
    simp only [List.map_cons, List.cons_append, ellipsisOkFrom]
    exact ih (a + 1) (by omega) (by omega) a l

lemma ellipsisOkFrom_range_append (prev a b : Int) (hab : a ≤ b) (l : List PageEntry) :
    ellipsisOkFrom prev ((intRange a b).map .page ++ l) = ellipsisOkFrom b l :=
  ellipsisOkFrom_range_suffix b (b - a).toNat a hab rfl prev l

/-! ### Chain lemmas for the numeric entries -/

lemma chain_range_concat (a b t : Int) (hab : a ≤ b) (hbt : b < t) :
    List.Chain' (· < ·) (intRange a b ++ [t]) := by
  rw [List.chain'_append]
  refine ⟨intRange_chain a b, List.chain'_singleton t, ?_⟩
  intro x hx y hy
  rw [intRange_getLast a b hab] at hx
  simp only [Option.mem_def, Option.some.injEq] at hx
  simp only [List.head?_cons, Option.mem_def, Option.some.injEq] at hy
  omega

lemma chain_cons_range (o a b : Int) (hoa : o < a) (hab : a ≤ b) :
    List.Chain' (· < ·) (o :: intRange a b) := by
  rw [List.chain'_cons']
  refine ⟨?_, intRange_chain a b⟩
  intro y hy
  rw [intRange_head a b hab] at hy
  simp only [Option.mem_def, Option.some.injEq] at hy
  omega

lemma chain_cons_range_concat (o a b t : Int) (hoa : o < a) (hab : a ≤ b) (hbt : b < t) :
    List.Chain' (· < ·) (o :: (intRange a b ++ [t])) := by
  rw [List.chain'_cons']
  refine ⟨?_, chain_range_concat a b t hab hbt⟩
  intro y hy
  rw [intRange_cons a b hab] at hy
  simp only [List.cons_append, List.head?_cons, Option.mem_def, Option.some.injEq] at hy
  omega

/-! ### The common shape of the truncated page lists -/

/-- Optional sublist, selected by a boolean flag. -/
def optEntries : Bool → List PageEntry → List PageEntry
  | true, l => l
  | false, _ => []

/-- Optional run of numeric values, selected by a boolean flag. -/
def optInts : Bool → List Int → List Int
  | true, l => l
  | false, _ => []

/-- The common shape of every branch of the three `getPageNumbers` versions:
an optional leading first page with an optional ellipsis, a window of
consecutive pages, and an optional trailing ellipsis with last page. -/
def buildShape (ln rn total : Int) (lead e1 trail e2 : Bool) : List PageEntry :=
  optEntries lead ([PageEntry.page 1] ++ optEntries e1 [PageEntry.ellipsis])
    ++ (intRange ln rn).map .page
    ++ optEntries trail (optEntries e2 [PageEntry.ellipsis] ++ [PageEntry.page total])

lemma pageValues_nil : pageValues [] = [] := rfl

lemma pageValues_one (n : Int) : pageValues [.page n] = [n] := rfl

lemma pageValues_ell : pageValues [.ellipsis] = [] := rfl

lemma pageValues_buildShape (ln rn total : Int) (lead e1 trail e2 : Bool) :
    pageValues (buildShape ln rn total lead e1 trail e2)
      = optInts lead [1] ++ intRange ln rn ++ optInts trail [total] := by
  cases lead <;> cases e1 <;> cases trail <;> cases e2 <;>
    simp [buildShape, optEntries, optInts, pageValues_append, pageValues_pages,
      pageValues_one, pageValues_ell, pageValues_cons_page, pageValues_cons_ellipsis,
      pageValues_nil]

lemma ellipsisOk_cons_page (a : Int) (l : List PageEntry) :
    ellipsisOk (.page a :: l) = ellipsisOkFrom a l := rfl

lemma ellipsisOkFrom_range_appendD (prev a b : Int) (hprev : b < a → b = prev)
    (l : List PageEntry) :
    ellipsisOkFrom prev ((intRange a b).map .page ++ l) = ellipsisOkFrom b l := by
  by_cases hab : a ≤ b
  · exact ellipsisOkFrom_range_append prev a b hab l
  · rw [← hprev (by omega), intRange_nil a b (by omega)]
    rfl

lemma ellipsisOk_range_append (a b : Int) (hab : a ≤ b) (l : List PageEntry) :
    ellipsisOk ((intRange a b).map .page ++ l) = ellipsisOkFrom b l := by
  rw [intRange_cons a b hab]
  simp only [List.map_cons, List.cons_append, ellipsisOk_cons_page]
  exact ellipsisOkFrom_range_appendD a (a + 1) b (by omega) l

/-- The page-list invariant stated by the specification for a given current
page and total page count: the numeric entries strictly increase, start at 1
and end at the total, the current page is among them, and every ellipsis sits
between two numeric entries that differ by more than 1. -/
def pageListInvariant (current total : Int) (l : List PageEntry) : Prop :=
  List.Chain' (· < ·) (pageValues l) ∧
  (pageValues l).head? = some 1 ∧
  (pageValues l).getLast? = some total ∧
  current ∈ pageValues l ∧
  ellipsisOk l = true

lemma buildShape_chain (ln rn total : Int) (lead trail : Bool) (hlr : ln ≤ rn)
    (hlead : lead = true → 1 < ln) (hleadF : lead = false → ln = 1)
    (htrail : trail = true → rn < total) :
    List.Chain' (· < ·) (optInts lead [1] ++ intRange ln rn ++ optInts trail [total]) := by
  cases lead <;> cases trail <;>
    simp only [optInts, List.nil_append, List.append_nil, List.singleton_append]
  · exact intRange_chain ln rn
  · exact chain_range_concat ln rn total hlr (htrail rfl)
  · exact chain_cons_range 1 ln rn (hlead rfl) hlr
  · exact chain_cons_range_concat 1 ln rn total (hlead rfl) hlr (htrail rfl)

lemma buildShape_head (ln rn total : Int) (lead trail : Bool) (hlr : ln ≤ rn)
    (hleadF : lead = false → ln = 1) :
    (optInts lead [1] ++ intRange ln rn ++ optInts trail [total]).head? = some 1 := by
  cases lead
  · have h1 : ln = 1 := hleadF rfl
    subst h1
    simp only [optInts, List.nil_append]
    rw [intRange_cons 1 rn hlr]
    rfl
  · rfl

lemma buildShape_getLast (ln rn total : Int) (lead trail : Bool) (hlr : ln ≤ rn)
    (htrailF : trail = false → rn = total) :
    (optInts lead [1] ++ intRange ln rn ++ optInts trail [total]).getLast? = some total := by
  cases trail
  · have h1 : rn = total := htrailF rfl
    rw [h1] at hlr
    rw [h1]
    cases lead
    · simp only [optInts, List.nil_append, List.append_nil]
      exact intRange_getLast ln total hlr
    · simp only [optInts, List.append_nil, List.singleton_append]
      rw [intRange_concat ln total hlr, ← List.cons_append, List.getLast?_concat]
  · simp only [optInts]
    rw [List.getLast?_concat]

lemma buildShape_mem (current ln rn total : Int) (lead trail : Bool)
    (hcur : (ln ≤ current ∧ current ≤ rn) ∨ (lead = true ∧ current = 1) ∨
      (trail = true ∧ current = total)) :
    current ∈ optInts lead [1] ++ intRange ln rn ++ optInts trail [total] := by
  rcases hcur with ⟨h1, h2⟩ | ⟨hl, hc⟩ | ⟨ht, hc⟩
  · refine List.mem_append_left _ (List.mem_append_right _ ?_)
    exact (mem_intRange ln rn current).2 ⟨h1, h2⟩
  · subst hl hc
    exact List.mem_append_left _ (List.mem_append_left _ (List.mem_singleton_self 1))
  · subst ht
    rw [hc]
    exact List.mem_append_right _ (List.mem_singleton_self total)

lemma ellipsisOk_range (a b : Int) (hab : a ≤ b) :
    ellipsisOk ((intRange a b).map PageEntry.page) = true := by
  rw [intRange_cons a b hab]
  simp only [List.map_cons, ellipsisOk_cons_page]
  exact ellipsisOkFrom_pages _ a

lemma buildShape_ellipsisOk (ln rn total : Int) (lead e1 trail e2 : Bool) (hlr : ln ≤ rn)
    (he1 : e1 = true → 2 < ln ∧ lead = true)
    (he2 : e2 = true → rn < total - 1 ∧ trail = true) :
    ellipsisOk (buildShape ln rn total lead e1 trail e2) = true := by
  have htail : ∀ t2 : Bool, (t2 = true → rn < total - 1) →
      ellipsisOkFrom rn (optEntries t2 [PageEntry.ellipsis] ++ [PageEntry.page total]) = true := by
    intro t2 ht2
    cases t2
    · rfl
    · have h3 := ht2 rfl
      simp only [optEntries, List.singleton_append, ellipsisOkFrom, Bool.and_eq_true,
        decide_eq_true_eq]
      exact ⟨by omega, by trivial⟩
  cases e1
  · cases lead
    · -- no leading 1: the window itself starts the list
      cases trail
      · show ellipsisOk (([] ++ (intRange ln rn).map PageEntry.page) ++ []) = true
        rw [List.nil_append, List.append_nil]
        exact ellipsisOk_range ln rn hlr
      · show ellipsisOk (([] ++ (intRange ln rn).map PageEntry.page)
            ++ (optEntries e2 [PageEntry.ellipsis] ++ [PageEntry.page total])) = true
        rw [List.nil_append, ellipsisOk_range_append ln rn hlr]
        exact htail e2 (fun h => (he2 h).1)
    · -- leading 1, no left ellipsis
      cases trail
      · show ellipsisOk ((([PageEntry.page 1] ++ [])
            ++ (intRange ln rn).map PageEntry.page) ++ []) = true
        rw [List.append_nil, List.append_nil, List.singleton_append, ellipsisOk_cons_page,
          ← List.append_nil ((intRange ln rn).map PageEntry.page),
          ellipsisOkFrom_range_append 1 ln rn hlr]
        rfl
      · show ellipsisOk ((([PageEntry.page 1] ++ [])
            ++ (intRange ln rn).map PageEntry.page)
            ++ (optEntries e2 [PageEntry.ellipsis] ++ [PageEntry.page total])) = true
        rw [List.append_nil, List.singleton_append, List.cons_append, ellipsisOk_cons_page,
          ellipsisOkFrom_range_append 1 ln rn hlr]
        exact htail e2 (fun h => (he2 h).1)
  · -- left ellipsis present: the gap 1 .. ln must exceed 1
    obtain ⟨hln, hlead⟩ := he1 rfl
    subst hlead
    have hmid : (intRange ln rn).map PageEntry.page
        = PageEntry.page ln :: (intRange (ln + 1) rn).map PageEntry.page := by
      rw [intRange_cons ln rn hlr, List.map_cons]
    cases trail
    · have he2f : e2 = false := by
        cases e2
        · rfl
        · exact absurd (he2 rfl).2 (by simp)
      subst he2f
      show ellipsisOk ((([PageEntry.page 1] ++ [PageEntry.ellipsis])
          ++ (intRange ln rn).map PageEntry.page) ++ []) = true
      rw [List.append_nil, hmid]
      show (decide (1 < ln - 1) && ellipsisOkFrom ln ((intRange (ln + 1) rn).map PageEntry.page))
          = true
      rw [← List.append_nil ((intRange (ln + 1) rn).map PageEntry.page),
        ellipsisOkFrom_range_appendD ln (ln + 1) rn (by omega)]
      simp only [Bool.and_eq_true, decide_eq_true_eq]
      exact ⟨by omega, by trivial⟩
    · show ellipsisOk ((([PageEntry.page 1] ++ [PageEntry.ellipsis])
          ++ (intRange ln rn).map PageEntry.page)
          ++ (optEntries e2 [PageEntry.ellipsis] ++ [PageEntry.page total])) = true
      rw [hmid]
      show (decide (1 < ln - 1) && ellipsisOkFrom ln ((intRange (ln + 1) rn).map PageEntry.page
          ++ (optEntries e2 [PageEntry.ellipsis] ++ [PageEntry.page total]))) = true
      rw [ellipsisOkFrom_range_appendD ln (ln + 1) rn (by omega)]
      simp only [Bool.and_eq_true, decide_eq_true_eq]
      exact ⟨by omega, htail e2 (fun h => (he2 h).1)⟩

lemma optEntries_decide (p : Prop) [Decidable p] (l : List PageEntry) :
    optEntries (decide p) l = if p then l else [] := by
  by_cases h : p <;> simp [optEntries, h]

lemma optEntries_true (l : List PageEntry) : optEntries true l = l := rfl

/-- Master lemma: any page list of the common shape, with side conditions tying
the window to the flags, satisfies the specification's page-list invariant. -/
lemma buildShape_invariant (current total ln rn : Int) (lead e1 trail e2 : Bool)
    (hlr : ln ≤ rn)
    (hlead : lead = true → 1 < ln) (hleadF : lead = false → ln = 1)
    (htrail : trail = true → rn < total) (htrailF : trail = false → rn = total)
    (he1 : e1 = true → 2 < ln ∧ lead = true)
    (he2 : e2 = true → rn < total - 1 ∧ trail = true)
    (hcur : (ln ≤ current ∧ current ≤ rn) ∨ (lead = true ∧ current = 1) ∨
      (trail = true ∧ current = total)) :
    pageListInvariant current total (buildShape ln rn total lead e1 trail e2) := by
  refine ⟨?_, ?_, ?_, ?_, ?_⟩
  · rw [pageValues_buildShape]
    exact buildShape_chain ln rn total lead trail hlr hlead hleadF htrail
  · rw [pageValues_buildShape]
    exact buildShape_head ln rn total lead trail hlr hleadF
  · rw [pageValues_buildShape]
    exact buildShape_getLast ln rn total lead trail hlr htrailF
  · rw [pageValues_buildShape]
    exact buildShape_mem current ln rn total lead trail hcur
  · exact buildShape_ellipsisOk ln rn total lead e1 trail e2 hlr he1 he2

lemma pages_small_eq (t : Int) :
    (intRange 1 t).map PageEntry.page = buildShape 1 t t false false false false := by
  simp [buildShape, optEntries]

lemma pageListInvariant_small (current total : Int) (h1 : 1 ≤ current)
    (h2 : current ≤ total) :
    pageListInvariant current total ((intRange 1 total).map PageEntry.page) := by
  rw [pages_small_eq]
  exact buildShape_invariant current total 1 total false false false false
    (by omega) (by simp) (fun _ => rfl) (by simp) (fun _ => rfl)
    (by simp) (by simp) (Or.inl ⟨h1, h2⟩)

lemma getPageNumbersSix_eq_buildShape (c t : Int) (h : ¬ t ≤ 6) :
    getPageNumbersSix c t
      = buildShape (max 2 (c - 1)) (min (t - 1) (c + 1)) t
          true (decide (2 < max 2 (c - 1))) true (decide (min (t - 1) (c + 1) < t - 1)) := by
  rw [getPageNumbersSix, if_neg h]
  simp only [buildShape, optEntries_true, optEntries_decide, List.append_assoc]

lemma pageListInvariant_six (current total : Int) (h1 : 1 ≤ current)
    (h2 : current ≤ total) :
    pageListInvariant current total (getPageNumbersSix current total) := by
  by_cases ht : total ≤ 6
  · rw [getPageNumbersSix, if_pos ht]
    exact pageListInvariant_small current total h1 h2
  · rw [getPageNumbersSix_eq_buildShape current total ht]
    have hln2 : 2 ≤ max 2 (current - 1) := le_max_left _ _
    have hlnc : current - 1 ≤ max 2 (current - 1) := le_max_right _ _
    have hlnch := max_choice 2 (current - 1)
    have hrnt : min (total - 1) (current + 1) ≤ total - 1 := min_le_left _ _
    have hrnc : min (total - 1) (current + 1) ≤ current + 1 := min_le_right _ _
    have hrnch := min_choice (total - 1) (current + 1)
    have hlr : max 2 (current - 1) ≤ min (total - 1) (current + 1) := by
      rcases hlnch with hl | hl <;> rcases hrnch with hr | hr <;> rw [hl, hr] <;> omega
    refine buildShape_invariant current total _ _ true _ true _ hlr
      (fun _ => by omega) (by simp) (fun _ => by omega) (by simp)
      (fun hd => ⟨of_decide_eq_true hd, rfl⟩)
      (fun hd => ⟨of_decide_eq_true hd, rfl⟩) ?_
    by_cases hc1 : current = 1
    · exact Or.inr (Or.inl ⟨rfl, hc1⟩)
    by_cases hct : current = total
    · exact Or.inr (Or.inr ⟨rfl, hct⟩)
    refine Or.inl ⟨max_le (by omega) (by omega), le_min (by omega) (by omega)⟩

/-- The clamped window start of the 5-visible-buttons `getPageNumbers`. -/
def fiveStart (current total : Int) : Int :=
  if current - 2 < 1 then 1 else if total < current + 2 then total - 5 + 1 else current - 2

/-- The clamped window stop of the 5-visible-buttons `getPageNumbers`. -/
def fiveStop (current total : Int) : Int :=
  if current - 2 < 1 then 5 else if total < current + 2 then total else current + 2

lemma getPageNumbersFive_eq_buildShape (c t : Int) (h : ¬ t ≤ 5) :
    getPageNumbersFive c t
      = buildShape (fiveStart c t) (fiveStop c t) t
          (decide (1 < fiveStart c t)) (decide (2 < fiveStart c t))
          (decide (fiveStop c t < t)) (decide (fiveStop c t < t - 1)) := by
  rw [getPageNumbersFive, if_neg h]
  simp only [buildShape, optEntries_decide, fiveStart, fiveStop, List.append_assoc]

lemma pageListInvariant_five (current total : Int) (h1 : 1 ≤ current)
    (h2 : current ≤ total) :
    pageListInvariant current total (getPageNumbersFive current total) := by
  by_cases ht : total ≤ 5
  · rw [getPageNumbersFive, if_pos ht]
    exact pageListInvariant_small current total h1 h2
  · rw [getPageNumbersFive_eq_buildShape current total ht]
    have hse : fiveStart current total ≤ fiveStop current total := by
      unfold fiveStart fiveStop
      split_ifs <;> omega
    have hs1 : 1 ≤ fiveStart current total := by
      unfold fiveStart
      split_ifs <;> omega
    have het : fiveStop current total ≤ total := by
      unfold fiveStop
      split_ifs <;> omega
    have hsc : fiveStart current total ≤ current := by
      unfold fiveStart
      split_ifs <;> omega
    have hce : current ≤ fiveStop current total := by
      unfold fiveStop
      split_ifs <;> omega
    refine buildShape_invariant current total _ _ _ _ _ _ hse
      (fun hd => of_decide_eq_true hd)
      (fun hd => by have := of_decide_eq_false hd; omega)
      (fun hd => of_decide_eq_true hd)
      (fun hd => by have := of_decide_eq_false hd; omega)
      (fun hd => ⟨of_decide_eq_true hd, decide_eq_true (by have := of_decide_eq_true hd; omega)⟩)
      (fun hd => ⟨of_decide_eq_true hd, decide_eq_true (by have := of_decide_eq_true hd; omega)⟩)
      (Or.inl ⟨hsc, hce⟩)

/-- `C9`: for every total ≥ 1 and `1 ≤ current ≤ total`, the page list of
`getPageNumbers` (both the current threshold-6 version and the 5-visible-buttons
version) has strictly increasing numeric entries starting at 1 and ending at
the total, contains the current page, and places ellipsis markers only between
two numeric entries that differ by more than 1. -/
theorem C9_page_list_invariant (current total : Int) (h1 : 1 ≤ current)
    (h2 : current ≤ total) :
    pageListInvariant current total (getPageNumbersSix current total) ∧
    pageListInvariant current total (getPageNumbersFive current total) :=
  ⟨pageListInvariant_six current total h1 h2, pageListInvariant_five current total h1 h2⟩

/-- Witness for `C9_page_list_invariant` at `current = 3`, `total = 9`. -/
theorem C9_page_list_invariant_witness :
    (1 : Int) ≤ 3 ∧ (3 : Int) ≤ 9 ∧
    pageListInvariant 3 9 (getPageNumbersSix 3 9) ∧
    pageListInvariant 3 9 (getPageNumbersFive 3 9) :=
  ⟨by decide, by decide,
    (C9_page_list_invariant 3 9 (by decide) (by decide)).1,
    (C9_page_list_invariant 3 9 (by decide) (by decide)).2⟩

/-- `C8` counterexample: the three `getPageNumbers` versions disagree, already
at `current = 1`, `total = 7`, where the threshold-7 version shows all seven
pages but the threshold-6 version truncates (and the 5-buttons version shows a
third list). -/
theorem C8_counterexample :
    getPageNumbersSeven 1 7 ≠ getPageNumbersSix 1 7 ∧
    getPageNumbersSeven 1 7 ≠ getPageNumbersFive 1 7 ∧
    getPageNumbersSeven 1 7
      = [PageEntry.page 1, PageEntry.page 2, PageEntry.page 3, PageEntry.page 4,
         PageEntry.page 5, PageEntry.page 6, PageEntry.page 7] ∧
    getPageNumbersSix 1 7
      = [PageEntry.page 1, PageEntry.page 2, PageEntry.ellipsis, PageEntry.page 7] := by
  refine ⟨?_, ?_, ?_, ?_⟩ <;> decide

/-- `C8` (amended): the three `getPageNumbers` implementations compute the same
page list for every pair `(current, total)` with `1 ≤ current ≤ total ≤ 6`;
beyond a total of 6 they may differ (see the counterexample at `(1, 7)`). -/
theorem C8_amended (c t : Int) (h1 : 1 ≤ c) (h2 : c ≤ t) (h3 : t ≤ 6) :
    getPageNumbersSeven c t = getPageNumbersFive c t ∧
    getPageNumbersFive c t = getPageNumbersSix c t := by
  have ht1 : (1 : Int) ≤ t := le_trans h1 h2
  interval_cases t <;> interval_cases c <;> exact ⟨by decide, by decide⟩

/-- Witness for `C8_amended` at `current = 2`, `total = 6`. -/
theorem C8_amended_witness :
    (1 : Int) ≤ 2 ∧ (2 : Int) ≤ 6 ∧ (6 : Int) ≤ 6 ∧
    (getPageNumbersSeven 2 6 = getPageNumbersFive 2 6 ∧
     getPageNumbersFive 2 6 = getPageNumbersSix 2 6) :=
  ⟨by decide, by decide, by decide, C8_amended 2 6 (by decide) (by decide) (by decide)⟩

/-! ## Customer entity fields -/

/-- Customer entity as declared in the customer types module: the
`CustomerCreate` payload fields plus `id` and `created_at`. -/
structure Customer where
  name : String
  last_name : String
  email : String
  id : Int
  created_at : String
deriving DecidableEq, Repr

/-- The field names of the declared `Customer` interface (`CustomerCreate`
fields plus the response fields `id` and `created_at`). -/
def customerTypeFields : List String :=
  ["name", "last_name", "email", "id", "created_at"]

/-- The customer fields the specification's data model lists. -/
def specCustomerFields : List String :=
  ["id", "name", "last_name", "email", "company_name", "industry", "created_at"]

/-- The customer fields read by the columns of the customer list page: the `id`
accessor, the `company_name` accessor, the `industry` badge render, the contact
render (`name`, `last_name`) and the `email` accessor. -/
def customersPageReadFields : List String :=
  ["id", "company_name", "industry", "name", "last_name", "email"]

/-- `C5`: the customer list page reads `company_name` and `industry`, and the
specification lists them as `Customer` fields, but the declared `Customer`
interface of the customer types module carries neither — the declaration is out
of step with its own consumers. -/
theorem C5_customer_fields_bug :
    ("company_name" ∈ customersPageReadFields ∧ "company_name" ∉ customerTypeFields) ∧
    ("industry" ∈ customersPageReadFields ∧ "industry" ∉ customerTypeFields) ∧
    ("company_name" ∈ specCustomerFields ∧ "industry" ∈ specCustomerFields) ∧
    customerTypeFields = ["name", "last_name", "email", "id", "created_at"] := by
  refine ⟨⟨?_, ?_⟩, ⟨?_, ?_⟩, ⟨?_, ?_⟩, rfl⟩ <;> decide

/-! ## List-query requests of the services -/

/-- An HTTP request as the axios service layer builds it: method, path and the
query parameters passed in `params`. -/
structure HttpRequest where
  method : String
  path : String
  params : List (String × Int)
deriving DecidableEq, Repr

/-- `customerService.getCustomers(skip = 0, limit = 10)`: GET `/customers`
forwarding `skip` and `limit` as query parameters; an omitted argument takes
the default. -/
def getCustomersRequest (skip limit : Option Int) : HttpRequest :=
  { method := "GET", path := "/customers",
    params := [("skip", skip.getD 0), ("limit", limit.getD 10)] }

/-- `productService.getProducts(skip = 0, limit = 10)`: GET `/products`
forwarding `skip` and `limit` as query parameters. -/
def getProductsRequest (skip limit : Option Int) : HttpRequest :=
  { method := "GET", path := "/products",
    params := [("skip", skip.getD 0), ("limit", limit.getD 10)] }

/-- The earliest `orderService.getOrders(skip = 0, limit = 10)` snapshot
(`orderService.ts`): GET `/orders` forwarding only `skip` and `limit` as query
parameters. -/
def getOrdersRequest (skip limit : Option Int) : HttpRequest :=
  { method := "GET", path := "/orders",
    params := [("skip", skip.getD 0), ("limit", limit.getD 10)] }

/-- The conditional spread `...(search && { search })` of the newer
`getOrders` snapshots: the search term is forwarded only when it is a truthy
(non-empty) string. -/
def searchParam (search : Option String) : List (String × String) :=
  match search with
  | none => []
  | some s => if s == "" then [] else [("search", s)]

/-- The conditional spread `...(status && status !== 'all' && { status })` of
the current `getOrders`: the status filter is forwarded only when it is a
truthy string other than `'all'`. -/
def statusParam (status : Option String) : List (String × String) :=
  match status with
  | none => []
  | some s => if s == "" then [] else if s == "all" then [] else [("status", s)]

/-- The query parameters built by the intermediate
`orderService.getOrders(skip = 0, limit = 10, search?)` snapshot: `skip` and
`limit` always, plus the conditional search spread. -/
def getOrdersSearchParams (skip limit : Option Int) (search : Option String) :
    List (String × String) :=
  [("skip", toString (skip.getD 0)), ("limit", toString (limit.getD 10))]
    ++ searchParam search

/-- The query parameters built by the current
`orderService.getOrders(skip = 0, limit = 10, search?, status?)`: `skip` and
`limit` always, plus the conditional search and status spreads. -/
def getOrdersFullParams (skip limit : Option Int) (search status : Option String) :
    List (String × String) :=
  [("skip", toString (skip.getD 0)), ("limit", toString (limit.getD 10))]
    ++ searchParam search
    ++ statusParam status

lemma searchParam_keys (t : Option String) :
    ∀ p ∈ searchParam t, p.1 = "search" := by
  intro p hp
  match t with
  | none => simp [searchParam] at hp
  | some s =>
    simp only [searchParam] at hp
    split at hp
    · simp at hp
    · rw [List.mem_singleton] at hp
      rw [hp]

lemma statusParam_keys (t : Option String) :
    ∀ p ∈ statusParam t, p.1 = "status" := by
  intro p hp
  match t with
  | none => simp [statusParam] at hp
  | some s =>
    simp only [statusParam] at hp
    split at hp
    · simp at hp
    · split at hp
      · simp at hp
      · rw [List.mem_singleton] at hp
        rw [hp]

/-- `C6` counterexample: the customer and product list-query services forward
no search or status query parameter at all — their parameter keys are exactly
`skip` and `limit` — so the claim that all three list-queries accept and
forward search and status filters fails on them (the earliest orders snapshot
is equally skip/limit-only). -/
theorem C6_counterexample :
    (getCustomersRequest none none).params.map Prod.fst = ["skip", "limit"] ∧
    (getProductsRequest none none).params.map Prod.fst = ["skip", "limit"] ∧
    (getOrdersRequest none none).params.map Prod.fst = ["skip", "limit"] ∧
    "search" ∉ (getCustomersRequest none none).params.map Prod.fst ∧
    "status" ∉ (getCustomersRequest none none).params.map Prod.fst ∧
    "search" ∉ (getProductsRequest none none).params.map Prod.fst ∧
    "status" ∉ (getProductsRequest none none).params.map Prod.fst := by
  refine ⟨rfl, rfl, rfl, ?_, ?_, ?_, ?_⟩ <;> decide

/-- `C6` (amended): all list-query operations accept pagination (`skip`,
`limit`) and forward them as query parameters of the GET request, with `skip`
defaulting to 0 and `limit` to 10 when omitted; the current orders list-query
additionally accepts a search term and a status filter, forwarding `search`
exactly when it is a non-empty string and `status` exactly when it is a
non-empty string other than `'all'`; the customers and products list-queries
accept no search or status parameter. -/
theorem C6_list_requests (skip limit : Option Int) (search status : Option String) :
    (getCustomersRequest skip limit).method = "GET" ∧
    (getProductsRequest skip limit).method = "GET" ∧
    (getOrdersRequest skip limit).method = "GET" ∧
    (getCustomersRequest skip limit).path = "/customers" ∧
    (getProductsRequest skip limit).path = "/products" ∧
    (getOrdersRequest skip limit).path = "/orders" ∧
    (getCustomersRequest skip limit).params
      = [("skip", skip.getD 0), ("limit", limit.getD 10)] ∧
    (getProductsRequest skip limit).params
      = [("skip", skip.getD 0), ("limit", limit.getD 10)] ∧
    (getOrdersRequest skip limit).params
      = [("skip", skip.getD 0), ("limit", limit.getD 10)] ∧
    (getCustomersRequest none none).params = [("skip", 0), ("limit", 10)] ∧
    ((getOrdersFullParams skip limit search status).take 2
      = [("skip", toString (skip.getD 0)), ("limit", toString (limit.getD 10))]) ∧
    (∀ s : String, s ≠ "" →
      ("search", s) ∈ getOrdersFullParams skip limit (some s) status) ∧
    "search" ∉ (getOrdersFullParams skip limit none status).map Prod.fst ∧
    "search" ∉ (getOrdersFullParams skip limit (some "") status).map Prod.fst ∧
    (∀ s : String, s ≠ "" → s ≠ "all" →
      ("status", s) ∈ getOrdersFullParams skip limit search (some s)) ∧
    "status" ∉ (getOrdersFullParams skip limit search none).map Prod.fst ∧
    "status" ∉ (getOrdersFullParams skip limit search (some "all")).map Prod.fst ∧
    getOrdersSearchParams skip limit search = getOrdersFullParams skip limit search none := by
  have hbase : ∀ (search2 status2 : Option String),
      getOrdersFullParams skip limit search2 status2
        = [("skip", toString (skip.getD 0)), ("limit", toString (limit.getD 10))]
            ++ (searchParam search2 ++ statusParam status2) := by
    intro search2 status2
    unfold getOrdersFullParams
    rw [List.append_assoc]
  have hnosearch : ∀ (search2 status2 : Option String), searchParam search2 = [] →
      "search" ∉ (getOrdersFullParams skip limit search2 status2).map Prod.fst := by
    intro search2 status2 hs hmem
    rw [hbase, hs, List.nil_append, List.map_append, List.mem_append] at hmem
    rcases hmem with h | h
    · rw [show List.map Prod.fst
          [("skip", toString (skip.getD 0)), ("limit", toString (limit.getD 10))]
          = ["skip", "limit"] from rfl] at h
      exact absurd h (by decide)
    · rw [List.mem_map] at h
      obtain ⟨p, hp, hkey⟩ := h
      have := statusParam_keys status2 p hp
      rw [this] at hkey
      exact absurd hkey (by decide)
  have hnostatus : ∀ (search2 status2 : Option String), statusParam status2 = [] →
      "status" ∉ (getOrdersFullParams skip limit search2 status2).map Prod.fst := by
    intro search2 status2 hs hmem
    rw [hbase, hs, List.append_nil, List.map_append, List.mem_append] at hmem
    rcases hmem with h | h
    · rw [show List.map Prod.fst
          [("skip", toString (skip.getD 0)), ("limit", toString (limit.getD 10))]
          = ["skip", "limit"] from rfl] at h
      exact absurd h (by decide)
    · rw [List.mem_map] at h
      obtain ⟨p, hp, hkey⟩ := h
      have := searchParam_keys search2 p hp
      rw [this] at hkey
      exact absurd hkey (by decide)
  refine ⟨rfl, rfl, rfl, rfl, rfl, rfl, rfl, rfl, rfl, rfl, ?_, ?_, ?_, ?_, ?_, ?_, ?_, ?_⟩
  · rw [hbase]
    exact List.take_left
      [("skip", toString (skip.getD 0)), ("limit", toString (limit.getD 10))]
      (searchParam search ++ statusParam status)
  · intro s hs
    rw [hbase]
    refine List.mem_append_right _ (List.mem_append_left _ ?_)
    rw [show searchParam (some s) = [("search", s)] by simp [searchParam, hs]]
    exact List.mem_singleton_self _
  · exact hnosearch none status rfl
  · exact hnosearch (some "") status rfl
  · intro s hs hall
    rw [hbase]
    refine List.mem_append_right _ (List.mem_append_right _ ?_)
    rw [show statusParam (some s) = [("status", s)] by simp [statusParam, hs, hall]]
    exact List.mem_singleton_self _
  · exact hnostatus search none rfl
  · exact hnostatus search (some "all") (by simp [statusParam])
  · unfold getOrdersSearchParams getOrdersFullParams
    rw [show statusParam none = [] from rfl, List.append_nil]

/-- Witness for `C6_list_requests` at concrete arguments exercising the
search/status hypotheses. -/
theorem C6_list_requests_witness :
    ("search", "acme") ∈ getOrdersFullParams (some 20) (some 7) (some "acme") (some "draft") ∧
    ("status", "draft") ∈ getOrdersFullParams (some 20) (some 7) (some "acme") (some "draft") ∧
    "status" ∉ (getOrdersFullParams none none none (some "all")).map Prod.fst ∧
    (getCustomersRequest none none).params = [("skip", 0), ("limit", 10)] := by
  have h := C6_list_requests (some 20) (some 7) (some "acme") (some "draft")
  have h2 := C6_list_requests none none none (some "all")
  exact ⟨h.2.2.2.2.2.2.2.2.2.2.2.1 "acme" (by decide),
    h.2.2.2.2.2.2.2.2.2.2.2.2.2.2.1 "draft" (by decide) (by decide),
    h2.2.2.2.2.2.2.2.2.2.2.2.2.2.2.2.1,
    h.2.2.2.2.2.2.2.2.2.1⟩

/-! ## Order status machine -/

/-- Position of a status along the chain draft → confirmed → completed. -/
def statusRank : OrderStatus → Int
  | .draft => 0
  | .confirmed => 1
  | .completed => 2

/-- Modelled from the spec: the backend status-transition validation is not
part of the frontend sources; per the specification, "status transitions are
monotonic (draft→confirmed→completed, no skipping, no reverse)", so a status
change may only advance one step along the chain. -/
def statusStepAllowed : OrderStatus → OrderStatus → Bool
  | .draft, .confirmed => true
  | .confirmed, .completed => true
  | _, _ => false

/-- A status reachable from another through any sequence of allowed changes. -/
def StatusReaches (s t : OrderStatus) : Prop :=
  Relation.ReflTransGen (fun a b => statusStepAllowed a b = true) s t

/-- From the `OrderDetail` page: the status-changing actions (Edit, Cancel
Order) render only while `order.status === 'draft'`. -/
def orderDetailActionsVisible (status : OrderStatus) : Bool :=
  status == .draft

/-- `C2`: an allowed status change advances the rank by exactly one (never
backwards, never skipping — in particular draft can never jump to completed),
any reachable status has rank at least the starting rank, and the detail page
offers its status-changing actions exactly in status draft. -/
theorem C2_status_monotonic :
    (∀ s t, statusStepAllowed s t = true → statusRank t = statusRank s + 1) ∧
    statusStepAllowed .draft .completed = false ∧
    (∀ s t, statusStepAllowed s t = true → ¬ statusRank t ≤ statusRank s) ∧
    (∀ s t, StatusReaches s t → statusRank s ≤ statusRank t) ∧
    (∀ s, orderDetailActionsVisible s = true ↔ s = .draft) := by
  refine ⟨by decide, by decide, by decide, ?_, by decide⟩
  intro s t h
  induction h with
  | refl => exact le_refl _
  | tail _ hstep ih =>
    have h1 : ∀ a b : OrderStatus, statusStepAllowed a b = true →
        statusRank b = statusRank a + 1 := by decide
    have h2 := h1 _ _ hstep
    omega

/-- Witness for `C2_status_monotonic`: concrete steps draft → confirmed →
completed. -/
theorem C2_status_monotonic_witness :
    statusRank .confirmed = statusRank .draft + 1 ∧
    statusRank .draft ≤ statusRank .completed ∧
    (orderDetailActionsVisible .confirmed = true ↔ OrderStatus.confirmed = .draft) := by
  have hreach : StatusReaches .draft .completed :=
    Relation.ReflTransGen.tail
      (Relation.ReflTransGen.single
        (show statusStepAllowed .draft .confirmed = true by decide))
      (show statusStepAllowed .confirmed .completed = true by decide)
  exact ⟨C2_status_monotonic.1 .draft .confirmed (by decide),
    C2_status_monotonic.2.2.2.1 .draft .completed hreach,
    C2_status_monotonic.2.2.2.2 .confirmed⟩

/-! ## Orders: creation payload, price freezing and totals -/

/-- `OrderItemCreate` of the order types module: exactly a product id and a
quantity — no price field exists on the creation payload. -/
structure OrderItemCreate where
  product_id : Int
  quantity : Int
deriving DecidableEq, Repr

/-- `OrderItem` of the order types module: the creation fields plus the
backend-assigned id, order id, the frozen `unit_price`, the creation date and
the full product. -/
structure OrderItem where
  product_id : Int
  quantity : Int
  id : Int
  order_id : Int
  unit_price : ℚ
  created_at : String
  product : Product
deriving DecidableEq, Repr

/-- `OrderCreate` of the order types module. -/
structure OrderCreate where
  customer_id : Int
  items : List OrderItemCreate
deriving DecidableEq, Repr

/-- `Order`/`OrderWithDetails` of the order types module (customer omitted;
the claims below never read it). -/
structure Order where
  customer_id : Int
  items : List OrderItem
  id : Int
  status : OrderStatus
  total_amount : ℚ
  created_at : String
deriving DecidableEq, Repr

/-- `calculateTotal` of `CreateOrderModal`: the cart total, reduced as
`total + price * quantity` over the cart rows. -/
def calculateTotal (cart : List CartItem) : ℚ :=
  cart.foldl (fun total item => total + item.product.price * (item.quantity : ℚ)) 0

/-- The items of the creation payload built by `handleSubmit` of
`CreateOrderModal`: per cart row only `product_id` and `quantity`. -/
def orderCreateItems (cart : List CartItem) : List OrderItemCreate :=
  cart.map (fun item => { product_id := item.product.id, quantity := item.quantity })

/-- The order-creation payload built by `handleSubmit` of `CreateOrderModal`. -/
def buildOrderCreate (customerId : Int) (cart : List CartItem) : OrderCreate :=
  { customer_id := customerId, items := orderCreateItems cart }

/-- The JSON fields of one serialized payload item, in order. -/
def serializeOrderItemCreate (item : OrderItemCreate) : List (String × Int) :=
  [("product_id", item.product_id), ("quantity", item.quantity)]

/-- Modelled from the spec: the backend order-creation endpoint is not part of
the frontend sources; per the specification, "OrderItems (order_id, product_id,
unit_price frozen at creation time)" — each created item freezes the product's
current price as its `unit_price` (backend-assigned item ids are irrelevant to
the claims and set to 0). -/
def frozenItems (orderId : Int) (cart : List CartItem) : List OrderItem :=
  cart.map (fun item =>
    { product_id := item.product.id, quantity := item.quantity, id := 0,
      order_id := orderId, unit_price := item.product.price, created_at := "",
      product := item.product })

/-- Modelled from the spec (intent, see `C1`): the stored `total_amount` of an
order is the sum over its items of the frozen `unit_price` times the quantity —
the quantity factor is forced by the frontend totals the order must agree
with. -/
def orderTotalAmount (items : List OrderItem) : ℚ :=
  items.foldl (fun total item => total + item.unit_price * (item.quantity : ℚ)) 0

/-- The sum of the items' frozen `unit_price` values, literally as the
specification's invariant sentence reads (no quantity factor); kept for
comparison with the stored total. -/
def specSumUnitPrices (items : List OrderItem) : ℚ :=
  items.foldl (fun total item => total + item.unit_price) 0

/-- Modelled from the spec: the backend creates the order with the frozen
items and the stored total. -/
def createOrderFromCart (customerId orderId : Int) (cart : List CartItem) : Order :=
  { customer_id := customerId, items := frozenItems orderId cart, id := orderId,
    status := .draft, total_amount := orderTotalAmount (frozenItems orderId cart),
    created_at := "" }

/-- The Subtotal column of the order detail page: the stored `unit_price`
times the quantity (never the product's current price). -/
def displayedSubtotal (item : OrderItem) : ℚ :=
  item.unit_price * (item.quantity : ℚ)

/-- The sum of the per-item subtotals the order detail page displays. -/
def sumDisplayedSubtotals (items : List OrderItem) : ℚ :=
  items.foldl (fun total item => total + displayedSubtotal item) 0

/-- The Order Total / Grand Total boxes of the order detail page display the
stored `total_amount`. -/
def orderDetailGrandTotal (order : Order) : ℚ :=
  order.total_amount

/-- A concrete cart with a quantity above 1, used to separate the two total
formulas. -/
def sampleCart : List CartItem :=
  [{ product := sampleProduct, quantity := 2 }]

lemma frozen_foldl (orderId : Int) (cart : List CartItem) (acc : ℚ) :
    (frozenItems orderId cart).foldl
        (fun total item => total + item.unit_price * (item.quantity : ℚ)) acc
      = cart.foldl (fun total item => total + item.product.price * (item.quantity : ℚ)) acc := by
  induction cart generalizing acc with
  | nil => rfl
  | cons x xs ih =>
    simp only [frozenItems, List.map_cons, List.foldl_cons]
    exact ih _

lemma orderTotalAmount_frozen (orderId : Int) (cart : List CartItem) :
    orderTotalAmount (frozenItems orderId cart) = calculateTotal cart :=
  frozen_foldl orderId cart 0

/-- `C1` counterexample: with one cart row of price 100 and quantity 2, the
client-side cart total (200) does not equal the sum of the items' frozen
`unit_price` values (100) — the claim's two clauses contradict each other as
soon as a quantity exceeds 1, so the invariant cannot read "sum of unit_price"
without the quantity factor. -/
theorem C1_counterexample :
    calculateTotal sampleCart ≠ specSumUnitPrices (frozenItems 1 sampleCart) ∧
    calculateTotal sampleCart = 200 ∧
    specSumUnitPrices (frozenItems 1 sampleCart) = 100 := by
  have h1 : calculateTotal sampleCart = 200 := by
    show (0 : ℚ) + (100 : ℚ) * ((2 : Int) : ℚ) = 200
    norm_num
  have h2 : specSumUnitPrices (frozenItems 1 sampleCart) = 100 := by
    show (0 : ℚ) + (100 : ℚ) = 100
    norm_num
  refine ⟨?_, h1, h2⟩
  rw [h1, h2]
  norm_num

/-- `C1` (amended): an order's stored `total_amount` equals the sum over its
items of the frozen `unit_price` times the quantity; the client-side cart total
(`calculateTotal`) computed before creation and the totals displayed on the
order detail page (Order Total / Grand Total and the sum of the per-item
subtotals) all agree with that sum. -/
theorem C1_total_amount (customerId orderId : Int) (cart : List CartItem) :
    (createOrderFromCart customerId orderId cart).total_amount = calculateTotal cart ∧
    orderDetailGrandTotal (createOrderFromCart customerId orderId cart)
      = calculateTotal cart ∧
    sumDisplayedSubtotals (createOrderFromCart customerId orderId cart).items
      = (createOrderFromCart customerId orderId cart).total_amount := by
  have h1 : (createOrderFromCart customerId orderId cart).total_amount
      = calculateTotal cart := orderTotalAmount_frozen orderId cart
  have h2 : sumDisplayedSubtotals (frozenItems orderId cart)
      = orderTotalAmount (frozenItems orderId cart) := rfl
  exact ⟨h1, h1, by rw [show (createOrderFromCart customerId orderId cart).items
    = frozenItems orderId cart from rfl, h2]; exact (orderTotalAmount_frozen orderId cart).trans h1.symm⟩

/-- `C3`: the creation payload carries, per item, exactly the fields
`product_id` and `quantity` (never any price field), and the per-item subtotal
displayed on the order detail page is the stored `unit_price` times the
quantity — replacing the item's product (e.g. after a price change) does not
change the displayed subtotal. -/
theorem C3_price_freezing (customerId : Int) (cart : List CartItem) :
    (∀ item ∈ (buildOrderCreate customerId cart).items,
       (serializeOrderItemCreate item).map Prod.fst = ["product_id", "quantity"] ∧
       "price" ∉ (serializeOrderItemCreate item).map Prod.fst ∧
       "unit_price" ∉ (serializeOrderItemCreate item).map Prod.fst) ∧
    (∀ item : OrderItem, displayedSubtotal item = item.unit_price * (item.quantity : ℚ)) ∧
    (∀ (item : OrderItem) (p : Product),
       displayedSubtotal { item with product := p } = displayedSubtotal item) := by
  refine ⟨?_, fun item => rfl, fun item p => rfl⟩
  intro item _
  refine ⟨rfl, ?_, ?_⟩ <;>
    · rw [show (serializeOrderItemCreate item).map Prod.fst
          = ["product_id", "quantity"] from rfl]
      decide

/-- A concrete frozen order item whose product price has since moved away from
the frozen price. -/
def sampleOrderItem : OrderItem :=
  { product_id := 1, quantity := 3, id := 10, order_id := 5, unit_price := 100,
    created_at := "2024-01-02", product := { sampleProduct with price := 999 } }

/-- Witness for `C3_price_freezing` at a concrete payload item and order item. -/
theorem C3_price_freezing_witness :
    ((serializeOrderItemCreate { product_id := 1, quantity := 2 }).map Prod.fst
        = ["product_id", "quantity"] ∧
     "price" ∉ (serializeOrderItemCreate { product_id := 1, quantity := 2 }).map Prod.fst ∧
     "unit_price" ∉ (serializeOrderItemCreate
        { product_id := 1, quantity := 2 }).map Prod.fst) ∧
    displayedSubtotal sampleOrderItem = 300 ∧
    displayedSubtotal { sampleOrderItem with product := sampleProduct }
      = displayedSubtotal sampleOrderItem := by
  refine ⟨(C3_price_freezing 7 sampleCart).1 { product_id := 1, quantity := 2 } ?_, ?_, ?_⟩
  · show OrderItemCreate.mk 1 2 ∈ (buildOrderCreate 7 sampleCart).items
    decide
  · rw [(C3_price_freezing 7 sampleCart).2.1 sampleOrderItem]
    show (100 : ℚ) * ((3 : Int) : ℚ) = 300
    norm_num
  · exact (C3_price_freezing 7 sampleCart).2.2 sampleOrderItem sampleProduct

/-! ## Delete guards -/

/-- An order row as the delete guard sees it: the referencing keys and the
status. -/
structure DBOrder where
  id : Int
  customer_id : Int
  product_ids : List Int
  status : OrderStatus
deriving DecidableEq, Repr

/-- The relational store the backend delete endpoints operate on. -/
structure DBState where
  customers : List Customer
  products : List Product
  orders : List DBOrder
deriving DecidableEq, Repr

/-- Modelled from the spec: an order still counts as active while it has not
completed (draft or confirmed). -/
def isActiveOrder (status : OrderStatus) : Bool :=
  status != .completed

/-- Some active order references the customer. -/
def customerReferenced (db : DBState) (customerId : Int) : Bool :=
  db.orders.any (fun o => o.customer_id == customerId && isActiveOrder o.status)

/-- Some active order references the product. -/
def productReferenced (db : DBState) (productId : Int) : Bool :=
  db.orders.any (fun o => o.product_ids.contains productId && isActiveOrder o.status)

/-- Modelled from the spec: the backend DELETE `/customers/{id}` endpoint is
not part of the frontend sources; per the specification, "deleting a
customer/product referenced by an active order is rejected" — the endpoint
answers with an error and leaves the store unchanged, otherwise it removes the
row. The pair is (resulting store, outcome). -/
def deleteCustomerBackend (db : DBState) (customerId : Int) :
    DBState × Except String Unit :=
  if customerReferenced db customerId then
    (db, .error "customer is referenced by an active order")
  else
    ({ db with customers := db.customers.filter (fun c => c.id != customerId) }, .ok ())

/-- Modelled from the spec: the backend DELETE `/products/{id}` endpoint,
same referential-integrity guard as for customers. -/
def deleteProductBackend (db : DBState) (productId : Int) :
    DBState × Except String Unit :=
  if productReferenced db productId then
    (db, .error "product is referenced by an active order")
  else
    ({ db with products := db.products.filter (fun p => p.id != productId) }, .ok ())

/-- The alert the customer detail page raises in the delete mutation's
`onError` handler. -/
def customerDeleteAlert (detail : String) : String :=
  "Cannot delete customer: " ++ detail

/-- The alert the product detail page raises in the delete mutation's
`onError` handler. -/
def productDeleteAlert (detail : String) : String :=
  "Cannot delete product: " ++ detail

/-- `C4`: a delete of a customer or product referenced by an active order is
rejected — the endpoint reports an error and the store (hence the entity) is
unchanged — and the frontend surfaces the rejection as an alert beginning
"Cannot delete". -/
theorem C4_delete_guard (db : DBState) (customerId productId : Int)
    (hc : customerReferenced db customerId = true)
    (hp : productReferenced db productId = true) :
    (deleteCustomerBackend db customerId).1 = db ∧
    (∃ e, (deleteCustomerBackend db customerId).2 = .error e) ∧
    (deleteProductBackend db productId).1 = db ∧
    (∃ e, (deleteProductBackend db productId).2 = .error e) ∧
    (∀ detail, ∃ rest, customerDeleteAlert detail = "Cannot delete" ++ rest) ∧
    (∀ detail, ∃ rest, productDeleteAlert detail = "Cannot delete" ++ rest) := by
  unfold deleteCustomerBackend deleteProductBackend
  rw [if_pos hc, if_pos hp]
  refine ⟨rfl, ⟨_, rfl⟩, rfl, ⟨_, rfl⟩, ?_, ?_⟩
  · intro detail
    exact ⟨" customer: " ++ detail, (String.append_assoc "Cannot delete" " customer: " detail).symm⟩
  · intro detail
    exact ⟨" product: " ++ detail, (String.append_assoc "Cannot delete" " product: " detail).symm⟩

/-- A concrete customer row for the witness store. -/
def sampleCustomer : Customer :=
  { name := "Ada", last_name := "Lovelace", email := "ada@example.com",
    id := 1, created_at := "2024-01-01" }

/-- A concrete store: one customer, one product, one draft order referencing
both. -/
def sampleDB : DBState :=
  { customers := [sampleCustomer],
    products := [sampleProduct],
    orders := [{ id := 10, customer_id := 1, product_ids := [1], status := .draft }] }

/-- Witness for `C4_delete_guard` on the concrete store. -/
theorem C4_delete_guard_witness :
    (deleteCustomerBackend sampleDB 1).1 = sampleDB ∧
    (∃ e, (deleteCustomerBackend sampleDB 1).2 = .error e) ∧
    (deleteProductBackend sampleDB 1).1 = sampleDB ∧
    (∃ e, (deleteProductBackend sampleDB 1).2 = .error e) ∧
    (∀ detail, ∃ rest, customerDeleteAlert detail = "Cannot delete" ++ rest) ∧
    (∀ detail, ∃ rest, productDeleteAlert detail = "Cannot delete" ++ rest) :=
  C4_delete_guard sampleDB 1 1 (by decide) (by decide)

/-! ## Service-layer error convention -/

end SalesAdmin
